import Mathlib

/-!
Verification of the natural-language specification of `youtube-ass.py`
(a converter from Youtube XML annotations to the SubStation Alpha
subtitle format) against a shallow embedding of the program.

The embedding models the Python code of `src/youtube-ass.py`:

* XML element trees (`xml.etree.ElementTree`) become the inductive
  `XmlElem`; `Element.get`, `Element.find`, `Element.findall` become
  `XmlElem.get`, `XmlElem.find`, `XmlElem.findall` (the program only
  ever queries direct children, so no recursive path search is needed).
* Python floats are modelled as exact rationals (`ℚ`): every numeric
  value that the program actually computes on the 100x100 canvas is a
  small integer, exactly representable in binary floating point, so the
  rational model coincides with the float semantics there.
* Code that can raise a Python exception is modelled in
  `Except PyError`; the exception class that Python 3 would raise is
  recorded (`TypeError` for `None` in string concatenation, `float(None)`
  and `min`/`max` over `None`, `AttributeError` for attribute access on
  `None`, `IndexError` for `box[1]` on a one-element list, `ValueError`
  for `float` of a non-numeric string).
* Python dicts keyed by the annotation id (`self.events`, `self.styles`)
  become insertion-ordered association lists with overwriting update
  (`dictUpdate`), which is exactly the observable behaviour of
  `dict.update` with a single key.
-/

/-- Model of an `xml.etree.ElementTree` element: tag, attributes,
optional text content, and the list of direct children. -/
inductive XmlElem : Type where
  | mk (tag : String) (attrs : List (String × String)) (text : Option String)
      (children : List XmlElem)

def XmlElem.tag : XmlElem → String
  | .mk t _ _ _ => t

def XmlElem.attrs : XmlElem → List (String × String)
  | .mk _ a _ _ => a

def XmlElem.text : XmlElem → Option String
  | .mk _ _ tx _ => tx

def XmlElem.children : XmlElem → List XmlElem
  | .mk _ _ _ c => c

/-- Model of `Element.get(key)`: the attribute value, or `None`. -/
def XmlElem.get (e : XmlElem) (k : String) : Option String :=
  (e.attrs.find? (fun p => decide (p.1 = k))).map Prod.snd

/-- Model of `Element.find(tag)`: the first direct child with that tag,
or `None`. -/
def XmlElem.find (e : XmlElem) (t : String) : Option XmlElem :=
  e.children.find? (fun c => decide (c.tag = t))

/-- Model of `Element.findall(tag)`: all direct children with that tag. -/
def XmlElem.findall (e : XmlElem) (t : String) : List XmlElem :=
  e.children.filter (fun c => decide (c.tag = t))

/-- The Python exception classes that `_parse_xml` can actually raise. -/
inductive PyError : Type where
  | typeError
  | attributeError
  | indexError
  | valueError
deriving DecidableEq, Repr

/-- One entry of `self.events`: the dict
`{"Text": text, "Start": t1, "End": t2}` built at line 143. -/
structure EventRec : Type where
  Text : String
  Start : String
  End : String
deriving DecidableEq, Repr

/-- One entry of `self.styles`: the dict built at line 146.  The colour
fields hold the raw result of `appearance.get(...)` (possibly `None`),
or the defaults `'1'`/`'0'` when there is no `appearance` element. -/
structure StyleRec : Type where
  PrimaryColour : Option String
  BackColour : Option String
  Alignment : ℕ
  MarginL : ℚ
  MarginR : ℚ
  MarginV : ℚ
deriving DecidableEq, Repr

/-- Lexicographic comparison of character lists by code point: the
comparison Python performs on `str` values in `min`/`max`. -/
def strLtb : List Char → List Char → Bool
  | [], [] => false
  | [], _ :: _ => true
  | _ :: _, [] => false
  | a :: as, b :: bs => if a < b then true else if b < a then false else strLtb as bs

/-- Python `a <= b` on strings: not `b < a`. -/
def pyStrLe (a b : String) : Bool :=
  ! strLtb b.data a.data

/-- Python `min(a, b)` on two strings: `b` if `b < a`, else `a`. -/
def pymin (a b : String) : String :=
  if strLtb b.data a.data then b else a

/-- Python `max(a, b)` on two strings: `b` if `a < b`, else `a`. -/
def pymax (a b : String) : String :=
  if strLtb a.data b.data then b else a

/-- Numeric value of a list of decimal digits, most significant first. -/
def digitsVal (l : List Char) : ℕ :=
  l.foldl (fun a c => a * 10 + (c.toNat - 48)) 0

/-- Model of Python `float(s)` on plain decimal literals
(`[sign] digits [. digits]`, at least one digit), returning the exact
rational value; other inputs are rejected (`ValueError`).  The program
feeds it the `x`/`y`/`w`/`h` attribute strings of a region element. -/
def parseFloat (s : String) : Option ℚ :=
  let body : List Char × ℚ :=
    match s.data with
    | '-' :: r => (r, -1)
    | '+' :: r => (r, 1)
    | l => (l, 1)
  let ip := body.1.takeWhile (fun c => c.isDigit)
  let rest := body.1.dropWhile (fun c => c.isDigit)
  match rest with
  | [] => if ip.isEmpty then none else some (body.2 * (digitsVal ip : ℚ))
  | '.' :: fp =>
    if fp.all (fun c => c.isDigit) && (!ip.isEmpty || !fp.isEmpty) then
      some (body.2 * ((digitsVal ip : ℚ) + (digitsVal fp : ℚ) / (10 : ℚ) ^ fp.length))
    else none
  | _ => none

/-- Model of `float(attribute)` where the attribute may be missing:
`float(None)` raises `TypeError`, a non-numeric string `ValueError`. -/
def floatOfAttr (o : Option String) : Except PyError ℚ :=
  match o with
  | none => .error .typeError
  | some s =>
    match parseFloat s with
    | some q => .ok q
    | none => .error .valueError

/-- Model of Python `str(...)` applied to an optional string value in a
format field: `None` renders as the literal `None`. -/
def pyStr (o : Option String) : String :=
  match o with
  | none => "None"
  | some s => s

/-- Model of Python `str(f)` for a float holding an exact decimal value:
integral values render with a trailing `.0` (e.g. `80.0`), other finite
decimal values render with their shortest exact decimal expansion. -/
def decStr (q : ℚ) : String :=
  if q.den = 1 then toString q.num ++ ".0"
  else
    match (List.range 40).find? (fun k => decide ((10 : ℕ) ^ k % q.den = 0)) with
    | some k =>
      let m : ℕ := q.num.natAbs * 10 ^ k / q.den
      let s0 := toString m
      let s := if s0.length ≤ k then
                 String.mk (List.replicate (k + 1 - s0.length) '0') ++ s0
               else s0
      (if q.num < 0 then "-" else "") ++
        (s.take (s.length - k)) ++ "." ++ (s.drop (s.length - k))
    | none => toString q.num ++ "/" ++ toString q.den

/-- Model of `YoutubeAss._get_pos` (lines 49-98).  `width`/`height` are
`self.width`/`self.height` (both 100); `width / 2` is Python's integer
floor division `self.width//2`.  Returns
`(Alignment, (MarginL, MarginR, MarginV))`. -/
def get_pos (width height : ℕ) (x y w h : ℚ) : ℕ × (ℚ × ℚ × ℚ) :=
  let mL := x
  let mR := (width : ℚ) - x - w
  if y < ((height / 2 : ℕ) : ℚ) then
    if x < ((width / 2 : ℕ) : ℚ) then (7, (mL, mR, y))
    else if x > ((width / 2 : ℕ) : ℚ) then (9, (mL, mR, y))
    else (8, (mL, mR, y))
  else if y > ((height / 2 : ℕ) : ℚ) then
    if x < ((width / 2 : ℕ) : ℚ) then (1, (mL, mR, (height : ℚ) - y - h))
    else if x > ((width / 2 : ℕ) : ℚ) then (3, (mL, mR, (height : ℚ) - y - h))
    else (2, (mL, mR, (height : ℚ) - y - h))
  else
    if x < ((width / 2 : ℕ) : ℚ) then (4, (mL, mR, 0))
    else if x > ((width / 2 : ℕ) : ℚ) then (6, (mL, mR, 0))
    else (5, (mL, mR, 0))

/-- Model of one iteration of the loop body of `_parse_xml`
(lines 105-150) on a single `annotation` element.
`.ok none` is `continue` after a skip diagnostic; `.ok (some _)` is the
pair of dict insertions; `.error _` is a raised exception.  Notably the
skip diagnostics at lines 109 and 112 concatenate `ant_id` into the
message, which raises `TypeError` when the `id` attribute is absent
(`ant_id is None`); and `box[1].get('t')` raises `IndexError` when only
one region element is present.  Comparison of `None` timecodes in
`min`/`max` raises `TypeError` (Python 3 semantics). -/
def procAnn (width height : ℕ) (e : XmlElem) :
    Except PyError (Option (Option String × EventRec × StyleRec)) :=
  let antId := e.get "id"
  if e.get "type" ≠ some "text" then
    match antId with
    | none => .error .typeError
    | some _ => .ok none
  else
    match e.find "TEXT" with
    | none =>
      match antId with
      | none => .error .typeError
      | some _ => .ok none
    | some textEl =>
      match textEl.text with
      | none => .error .attributeError
      | some txt =>
        match e.find "segment" with
        | none => .error .attributeError
        | some seg =>
          match seg.find "movingRegion" with
          | none => .error .attributeError
          | some mr =>
            let box0 := mr.findall "rectRegion"
            let box := if box0.isEmpty then mr.findall "anchoredRegion" else box0
            match box with
            | [] => .ok none
            | [_] => .error .indexError
            | b0 :: b1 :: _ =>
              match b0.get "t", b1.get "t" with
              | some s0, some s1 =>
                let t1 := pymin s0 s1
                let t2 := pymax s0 s1
                if t1 = "never" ∨ t2 = "never" then .ok none
                else
                  match floatOfAttr (b0.get "x"), floatOfAttr (b0.get "y"),
                        floatOfAttr (b0.get "w"), floatOfAttr (b0.get "h") with
                  | .ok x, .ok y, .ok w, .ok h =>
                    let r := get_pos width height x y w h
                    let colors :=
                      match e.find "appearance" with
                      | some app => (app.get "fgColor", app.get "bgColor")
                      | none => (some "1", some "0")
                    .ok (some (antId, ⟨txt, t1, t2⟩,
                      ⟨colors.1, colors.2, r.1, r.2.1, r.2.2.1, r.2.2.2⟩))
                  | .error er, _, _, _ => .error er
                  | _, .error er, _, _ => .error er
                  | _, _, .error er, _ => .error er
                  | _, _, _, .error er => .error er
              | _, _ => .error .typeError

/-- Python `dict` update with one key: overwrite in place if the key is
present, else append.  Keys are `Option String` because `each.get('id')`
may be `None` and `None` is a valid dict key. -/
def dictUpdate {α : Type} (k : Option String) (v : α)
    (d : List (Option String × α)) : List (Option String × α) :=
  if d.any (fun p => decide (p.1 = k)) then
    d.map (fun p => if p.1 = k then (k, v) else p)
  else d ++ [(k, v)]

/-- Python `dict` lookup. -/
def dictLookup {α : Type} (k : Option String)
    (d : List (Option String × α)) : Option α :=
  (d.find? (fun p => decide (p.1 = k))).map Prod.snd

/-- The `for each in ...findall('annotation')` loop of `_parse_xml`,
threading the two dicts. -/
def parseLoop (width height : ℕ) :
    List XmlElem → List (Option String × EventRec) →
    List (Option String × StyleRec) →
    Except PyError (List (Option String × EventRec) × List (Option String × StyleRec))
  | [], ev, st => .ok (ev, st)
  | e :: rest, ev, st =>
    match procAnn width height e with
    | .error er => .error er
    | .ok none => parseLoop width height rest ev st
    | .ok (some (k, evr, srec)) =>
      parseLoop width height rest (dictUpdate k evr ev) (dictUpdate k srec st)

/-- Model of `YoutubeAss._parse_xml`: locate the `annotations` container
(`self.xml.find('annotations')`; absence raises `AttributeError` since
`None.findall` is then called) and run the loop over its `annotation`
children starting from empty dicts. -/
def parse_xml (width height : ℕ) (root : XmlElem) :
    Except PyError (List (Option String × EventRec) × List (Option String × StyleRec)) :=
  match root.find "annotations" with
  | none => .error .attributeError
  | some cont => parseLoop width height (cont.findall "annotation") [] []

/-- The fixed `self.Script_Info` header (lines 38-39). -/
def scriptInfoHdr : String :=
  "[Script Info]\nScriptType: V4.00+\nPlayResX: 100\nPlayResY: 100\n"

/-- The fixed `self.V4_Styles` header (lines 40-43). -/
def v4StylesHdr : String :=
  "[V4 Styles]\nFormat: Name, Fontname, Fontsize, PrimaryColour, SecondaryColour, TertiaryColour, BackColour, Bold, Italic, BorderStyle, Outline, Shadow, Alignment, MarginL, MarginR, MarginV, AlphaLevel, Encoding\n"

/-- The fixed `self.Events` header (lines 44-45). -/
def eventsHdr : String :=
  "[Events]\nFormat: Marked, Start, End, Style, Name, MarginL, MarginR, MarginV, Effect, Text\n"

/-- One line of `_write_styles` (lines 174-178), with the `misc_data`
constants substituted; the literal `0` before Encoding is AlphaLevel. -/
def styleLine (name : Option String) (d : StyleRec) : String :=
  "Style: " ++ pyStr name ++ ",Arial,4.5," ++ pyStr d.PrimaryColour ++ "," ++
    pyStr d.PrimaryColour ++ "," ++ pyStr d.PrimaryColour ++ "," ++
    pyStr d.BackColour ++ ",0,0,1,0.1,0.2," ++ toString d.Alignment ++ "," ++
    decStr d.MarginL ++ "," ++ decStr d.MarginR ++ "," ++ decStr d.MarginV ++
    ",0,0\n"

/-- One line of `_write_events` (lines 193-195), with the `misc_data`
constants substituted. -/
def eventLine (name : Option String) (d : EventRec) : String :=
  "Dialogue: Marked=0," ++ d.Start ++ "," ++ d.End ++ "," ++ pyStr name ++
    ",Speaker,0,0,0,," ++ d.Text ++ "\n"

/-- Model of `_write_styles`: fold the style lines onto the header. -/
def writeStyles (st : List (Option String × StyleRec)) : String :=
  st.foldl (fun acc p => acc ++ styleLine p.1 p.2) v4StylesHdr

/-- Model of `_write_events`. -/
def writeEvents (ev : List (Option String × EventRec)) : String :=
  ev.foldl (fun acc p => acc ++ eventLine p.1 p.2) eventsHdr

/-- The file contents written by `save` (lines 198-205). -/
def saveDoc (ev : List (Option String × EventRec))
    (st : List (Option String × StyleRec)) : String :=
  scriptInfoHdr ++ "\n" ++ writeStyles st ++ "\n" ++ writeEvents ev ++ "\n"

/-- The whole conversion `YoutubeAss(xml).save(f)` on an already-parsed
XML tree: parse with the fixed 100x100 canvas, then serialize. -/
def youtubeAssRun (root : XmlElem) : Except PyError String :=
  match parse_xml 100 100 root with
  | .error er => .error er
  | .ok (ev, st) => .ok (saveDoc ev st)

/-- The produced document, or the empty string when the run raised. -/
def assOutput (root : XmlElem) : String :=
  match youtubeAssRun root with
  | .error _ => ""
  | .ok s => s

/-- Split a character list at newline characters. -/
def splitLinesAux : List Char → List Char → List (List Char)
  | [], acc => [acc.reverse]
  | c :: rest, acc =>
    if c = '\n' then acc.reverse :: splitLinesAux rest []
    else splitLinesAux rest (c :: acc)

/-- Whether `line` occurs as one complete line of `doc`. -/
def hasLine (doc line : String) : Bool :=
  (splitLinesAux doc.data []).contains line.data

/-! ## Concrete input documents used by the claims -/

/-- The input document of claim C1: exactly one valid text annotation,
id `a1`, box (0,0,20,10), timecodes `1000` and `2000`, text `hello`,
and no `appearance` element. -/
def docC1 : XmlElem :=
  .mk "document" [] none [
    .mk "annotations" [] none [
      .mk "annotation" [("id", "a1"), ("type", "text")] none [
        .mk "TEXT" [] (some "hello") [],
        .mk "segment" [] none [
          .mk "movingRegion" [] none [
            .mk "rectRegion"
              [("t", "1000"), ("x", "0"), ("y", "0"), ("w", "20"), ("h", "10")]
              none [],
            .mk "rectRegion" [("t", "2000")] none [] ] ] ] ] ]

/-- C1, counterexample.  The claimed exact Style line serializes the
margins as the integers `0,80,0`, but the code computes them as Python
floats (`map(float, ...)` at line 129), so they serialize as
`0.0,80.0,0.0`; the claimed line is not a line of the produced
document, even though the claimed Dialogue line is. -/
theorem C1_style_line_cex :
    hasLine (assOutput docC1)
      "Style: a1,Arial,4.5,1,1,1,0,0,0,1,0.1,0.2,7,0,80,0,0,0" = false ∧
    hasLine (assOutput docC1)
      "Dialogue: Marked=0,1000,2000,a1,Speaker,0,0,0,,hello" = true := by
  constructor
  · with_unfolding_all rfl
  · with_unfolding_all rfl

/-- C1, amended.  For the input XML document with exactly one valid text
annotation with id `a1`, box (0,0,20,10), start `1000`, end `2000`, text
`hello` and no appearance element, the produced ASS document contains
the exact line
`Style: a1,Arial,4.5,1,1,1,0,0,0,1,0.1,0.2,7,0.0,80.0,0.0,0,0`
(margins serialized in Python float notation) and the exact line
`Dialogue: Marked=0,1000,2000,a1,Speaker,0,0,0,,hello`. -/
theorem C1_end_to_end :
    hasLine (assOutput docC1)
      "Style: a1,Arial,4.5,1,1,1,0,0,0,1,0.1,0.2,7,0.0,80.0,0.0,0,0" = true ∧
    hasLine (assOutput docC1)
      "Dialogue: Marked=0,1000,2000,a1,Speaker,0,0,0,,hello" = true := by
  constructor
  · with_unfolding_all rfl
  · with_unfolding_all rfl

/-- C2, counterexample.  On the 100x100 canvas the box (45,45,10,10) has
its top-left corner strictly left of and strictly above the midpoint
(45 < 50), so `_get_pos` places it in the top-left band, not at
dead-center: the result is not `(5, (45, 45, 0))`. -/
theorem C2_dead_center_cex :
    get_pos 100 100 45 45 10 10 ≠ (5, (45, 45, 0)) := by
  with_unfolding_all decide

/-- C2, amended.  On the default 100x100 canvas, `_get_pos` applied to
the box (x=45, y=45, w=10, h=10) returns alignment 7 (top-left) with
margins (MarginL=45, MarginR=45, MarginV=45); dead-center alignment 5
would require x and y to equal the midpoint 50 exactly. -/
theorem C2_box_45 :
    get_pos 100 100 45 45 10 10 = (7, (45, 45, 45)) := by
  with_unfolding_all rfl

/-- C4 (confirmed).  On the default 100x100 canvas `_get_pos` partitions
vertically by the midpoint 50: `y < 50` gives MarginV = y and a top
alignment in {7,8,9}; `y > 50` gives MarginV = 100 - y - h and a bottom
alignment in {1,2,3}; `y = 50` gives MarginV = 0 and a middle alignment
in {4,5,6}; and within the band `x < 50` selects the left variant
({7,1,4}), `x > 50` the right variant ({9,3,6}) and `x = 50` the center
variant ({8,2,5}). -/
theorem C4_band_partition (x y w h : ℚ) (a : ℕ) (mL mR mV : ℚ)
    (hres : get_pos 100 100 x y w h = (a, (mL, mR, mV))) :
    (y < 50 → mV = y ∧ (a = 7 ∨ a = 8 ∨ a = 9)) ∧
    (y > 50 → mV = 100 - y - h ∧ (a = 1 ∨ a = 2 ∨ a = 3)) ∧
    (y = 50 → mV = 0 ∧ (a = 4 ∨ a = 5 ∨ a = 6)) ∧
    (x < 50 → a = 7 ∨ a = 1 ∨ a = 4) ∧
    (x > 50 → a = 9 ∨ a = 3 ∨ a = 6) ∧
    (x = 50 → a = 8 ∨ a = 2 ∨ a = 5) := by
  have h50 : ((100 / 2 : ℕ) : ℚ) = 50 := by norm_num
  unfold get_pos at hres
  rw [h50] at hres
  split_ifs at hres with h1 h2 h3 h4 h5 h6 h7 h8 <;>
    simp only [Prod.mk.injEq] at hres <;>
    obtain ⟨rfl, rfl, rfl, rfl⟩ := hres <;>
    refine ⟨?_, ?_, ?_, ?_, ?_, ?_⟩ <;> intro hc <;>
    first
      | (exfalso; linarith)
      | (refine ⟨by push_cast; ring, by norm_num⟩)
      | norm_num

/-- C4, witness at the box (10, 60, 5, 5): bottom band, so the bottom
alignments apply and MarginV = 100 - 60 - 5. -/
theorem C4_band_partition_witness :
    (35 : ℚ) = 100 - 60 - 5 ∧ ((1 : ℕ) = 1 ∨ 1 = 2 ∨ 1 = 3) :=
  (C4_band_partition 10 60 5 5 1 10 85 35
    (by with_unfolding_all rfl)).2.1 (by norm_num)

/-- C5 (confirmed).  For every box (x,y,w,h) with 0 ≤ x ≤ canvasWidth
and 0 ≤ y ≤ canvasHeight and both canvas sizes even, `_get_pos` returns
an alignment in {1..9} and margins with
MarginL + MarginR + w = canvasWidth exactly. -/
theorem C5_alignment_margin_sum (width height : ℕ) (x y w h : ℚ)
    (a : ℕ) (mL mR mV : ℚ)
    (hW : 2 ∣ width) (hH : 2 ∣ height)
    (hx0 : 0 ≤ x) (hx1 : x ≤ (width : ℚ))
    (hy0 : 0 ≤ y) (hy1 : y ≤ (height : ℚ))
    (hres : get_pos width height x y w h = (a, (mL, mR, mV))) :
    (1 ≤ a ∧ a ≤ 9) ∧ mL + mR + w = (width : ℚ) := by
  unfold get_pos at hres
  split_ifs at hres <;>
    simp only [Prod.mk.injEq] at hres <;>
    obtain ⟨rfl, rfl, rfl, rfl⟩ := hres <;>
    exact ⟨by omega, by ring⟩

/-- C5, witness at canvas 100x100 and box (90, 90, 10, 10). -/
theorem C5_alignment_margin_sum_witness :
    ((1 ≤ 3 ∧ 3 ≤ 9) ∧ (90 : ℚ) + 0 + 10 = (100 : ℕ)) := by
  exact C5_alignment_margin_sum 100 100 90 90 10 10 3 90 0 0
    (by norm_num) (by norm_num) (by norm_num) (by norm_num) (by norm_num)
    (by norm_num) (by with_unfolding_all rfl)

/-! ## C3: which anomalies skip and which abort -/

/-- An annotation that passes the `type` and `TEXT` checks but has no
`segment` child, so `each.find('segment').find('movingRegion')` is
`None.find(...)`. -/
def annNoSegment : XmlElem :=
  .mk "annotation" [("id", "b1"), ("type", "text")] none
    [.mk "TEXT" [] (some "x") []]

/-- The C3 counterexample document: well-formed, with an `annotations`
container holding `annNoSegment`. -/
def docC3bad : XmlElem :=
  .mk "document" [] none [.mk "annotations" [] none [annNoSegment]]

/-- C3, counterexample.  A record-level anomaly can abort the whole
parse: an annotation of type `text` with a `TEXT` child but no
`segment` element makes line 115 call `.find('movingRegion')` on
`None`, raising `AttributeError`, so the parse raises even though the
XML itself is well-formed and has an `annotations` container. -/
theorem C3_abort_cex :
    parse_xml 100 100 docC3bad = .error .attributeError := by
  with_unfolding_all rfl

/-- C3, amended.  Only the anomalies the loop explicitly guards are
non-fatal: an annotation that (with an `id` attribute present) has
non-`text` type or no `TEXT` child, or whose `movingRegion` yields no
`rectRegion` and no `anchoredRegion` children, or whose two resolved
timecodes include the sentinel `never`, is skipped (`.ok none`) and the
loop continues on the remaining annotations unchanged.  Other
record-level anomalies (e.g. a missing `segment`, as in the
counterexample, or a missing `id` on a skipped annotation, whose skip
diagnostic itself raises `TypeError`) abort the run. -/
theorem C3_guarded_skips :
    (∀ (width height : ℕ) (e : XmlElem) (rest : List XmlElem) ev st,
      procAnn width height e = .ok none →
      parseLoop width height (e :: rest) ev st = parseLoop width height rest ev st) ∧
    (∀ (width height : ℕ) (e : XmlElem) (a : String),
      e.get "id" = some a → e.get "type" ≠ some "text" →
      procAnn width height e = .ok none) ∧
    (∀ (width height : ℕ) (e : XmlElem) (a : String),
      e.get "id" = some a → e.get "type" = some "text" → e.find "TEXT" = none →
      procAnn width height e = .ok none) ∧
    (∀ (width height : ℕ) (e tEl seg mr : XmlElem) (txt : String),
      e.get "type" = some "text" → e.find "TEXT" = some tEl →
      tEl.text = some txt → e.find "segment" = some seg →
      seg.find "movingRegion" = some mr →
      mr.findall "rectRegion" = [] → mr.findall "anchoredRegion" = [] →
      procAnn width height e = .ok none) ∧
    (∀ (width height : ℕ) (e tEl seg mr b0 b1 : XmlElem)
        (tl : List XmlElem) (txt s0 s1 : String),
      e.get "type" = some "text" → e.find "TEXT" = some tEl →
      tEl.text = some txt → e.find "segment" = some seg →
      seg.find "movingRegion" = some mr →
      mr.findall "rectRegion" = b0 :: b1 :: tl →
      b0.get "t" = some s0 → b1.get "t" = some s1 →
      (pymin s0 s1 = "never" ∨ pymax s0 s1 = "never") →
      procAnn width height e = .ok none) := by
  refine ⟨?_, ?_, ?_, ?_, ?_⟩
  · intro width height e rest ev st hskip
    simp [parseLoop, hskip]
  · intro width height e a hid hty
    simp [procAnn, hid, hty]
  · intro width height e a hid hty hfind
    simp [procAnn, hid, hty, hfind]
  · intro width height e tEl seg mr txt hty htx httext hseg hmr hrect hanch
    simp [procAnn, hty, htx, httext, hseg, hmr, hrect, hanch]
  · intro width height e tEl seg mr b0 b1 tl txt s0 s1
      hty htx httext hseg hmr hrect ht0 ht1 hnever
    simp [procAnn, hty, htx, httext, hseg, hmr, hrect, ht0, ht1, hnever]

/-- C3, witness: a non-text annotation carrying an id is skipped. -/
theorem C3_guarded_skips_witness :
    procAnn 100 100
      (.mk "annotation" [("id", "k1"), ("type", "highlightText")] none []) =
      .ok none :=
  C3_guarded_skips.2.1 100 100
    (.mk "annotation" [("id", "k1"), ("type", "highlightText")] none [])
    "k1" (by decide) (by decide)

/-! ## C8: non-text annotations -/

/-- A non-text annotation with no `id` attribute. -/
def annNonTextNoId : XmlElem :=
  .mk "annotation" [("type", "highlightText")] none []

/-- A complete valid text annotation with id `a2`. -/
def annA2 : XmlElem :=
  .mk "annotation" [("id", "a2"), ("type", "text")] none [
    .mk "TEXT" [] (some "hi") [],
    .mk "segment" [] none [
      .mk "movingRegion" [] none [
        .mk "rectRegion"
          [("t", "1000"), ("x", "0"), ("y", "0"), ("w", "20"), ("h", "10")]
          none [],
        .mk "rectRegion" [("t", "2000")] none [] ] ] ]

/-- A document with the id-less non-text annotation followed by a valid
one. -/
def docC8 : XmlElem :=
  .mk "document" [] none [.mk "annotations" [] none [annNonTextNoId, annA2]]

/-- The same document without the non-text annotation. -/
def docC8good : XmlElem :=
  .mk "document" [] none [.mk "annotations" [] none [annA2]]

/-- C8, counterexample.  A non-text annotation without an `id` attribute
does prevent subsequent annotations from being parsed: the skip
diagnostic at line 109 concatenates `ant_id` (`None`) into a string,
raising `TypeError` and aborting the parse, so the following valid
annotation — which is retained when the non-text annotation is removed —
produces no records. -/
theorem C8_missing_id_cex :
    parse_xml 100 100 docC8 = .error .typeError ∧
    parse_xml 100 100 docC8good =
      .ok ([(some "a2", ⟨"hi", "1000", "2000"⟩)],
           [(some "a2", ⟨some "1", some "0", 7, 0, 80, 0⟩)]) := by
  constructor
  · with_unfolding_all rfl
  · with_unfolding_all rfl

/-- C8, amended.  An annotation whose `type` attribute differs from
`text` and which carries an `id` attribute contributes no EventRecord
and no StyleRecord and leaves the processing of the remaining
annotations exactly as if it were absent; without an `id` attribute the
skip diagnostic itself raises `TypeError` (see the counterexample). -/
theorem C8_non_text_skipped (width height : ℕ) (e : XmlElem) (a : String)
    (rest : List XmlElem) (ev : List (Option String × EventRec))
    (st : List (Option String × StyleRec))
    (hty : e.get "type" ≠ some "text") (hid : e.get "id" = some a) :
    parseLoop width height (e :: rest) ev st =
      parseLoop width height rest ev st := by
  have hskip : procAnn width height e = .ok none := by
    simp [procAnn, hid, hty]
  simp [parseLoop, hskip]

/-- C8, witness: prepending a non-text annotation (with id) to a list
leaves the result of the loop unchanged. -/
theorem C8_non_text_skipped_witness :
    parseLoop 100 100
      [.mk "annotation" [("id", "k2"), ("type", "pause")] none []] [] [] =
      parseLoop 100 100 [] [] [] :=
  C8_non_text_skipped 100 100
    (.mk "annotation" [("id", "k2"), ("type", "pause")] none [])
    "k2" [] [] [] (by decide) (by decide)

/-! ## Helper lemmas about the dict model and the string order -/

/-- Whether a key occurs in a dict depends only on the key list. -/
theorem anyKey {α : Type} (k : Option String) (d : List (Option String × α)) :
    d.any (fun p => decide (p.1 = k)) =
      (d.map Prod.fst).any (fun x => decide (x = k)) := by
  induction d with
  | nil => rfl
  | cons p rest ih => simp [ih]

/-- Updating a dict either leaves the key list unchanged (overwrite) or
appends the new key. -/
theorem keys_dictUpdate {α : Type} (k : Option String) (v : α)
    (d : List (Option String × α)) :
    (dictUpdate k v d).map Prod.fst =
      if d.any (fun p => decide (p.1 = k)) then d.map Prod.fst
      else d.map Prod.fst ++ [k] := by
  unfold dictUpdate
  split_ifs with hany
  · rw [List.map_map]
    apply List.map_congr_left
    intro p _
    simp only [Function.comp_apply]
    split_ifs with hp
    · simp [hp]
    · rfl
  · simp

/-- Updating with a key present in the dict keeps the key list Nodup;
updating with a fresh key appends it, also keeping Nodup. -/
theorem keys_nodup_dictUpdate {α : Type} (k : Option String) (v : α)
    (d : List (Option String × α)) (h : (d.map Prod.fst).Nodup) :
    ((dictUpdate k v d).map Prod.fst).Nodup := by
  rw [keys_dictUpdate]
  split_ifs with hany
  · exact h
  · rw [List.nodup_append]
    refine ⟨h, List.nodup_singleton k, ?_⟩
    intro x hx hx1
    simp only [List.mem_singleton] at hx1
    subst hx1
    apply hany
    rw [anyKey]
    exact List.any_eq_true.mpr ⟨x, hx, by simp⟩

/-- Looking up the key just written returns the written value. -/
theorem dictLookup_update_self {α : Type} (k : Option String) (v : α)
    (d : List (Option String × α)) :
    dictLookup k (dictUpdate k v d) = some v := by
  unfold dictUpdate dictLookup
  split_ifs with hany
  · induction d with
    | nil => simp at hany
    | cons p rest ih =>
      by_cases hp : p.1 = k
      · rw [List.map_cons, if_pos hp, List.find?_cons_of_pos _ (by simp)]
        rfl
      · simp only [List.any_cons, Bool.or_eq_true, decide_eq_true_eq] at hany
        rcases hany with hany | hany
        · exact absurd hany hp
        · rw [List.map_cons, if_neg hp, List.find?_cons_of_neg _ (by simp [hp])]
          exact ih hany
  · have hnone : d.find? (fun p => decide (p.1 = k)) = none := by
      rw [List.find?_eq_none]
      intro p hp
      simp only [decide_eq_true_eq]
      intro hk
      exact hany (List.any_eq_true.mpr ⟨p, hp, by simp [hk]⟩)
    rw [List.find?_append, hnone]
    rw [List.find?_cons_of_pos _ (by simp)]
    rfl

/-- Updating a different key does not change a lookup. -/
theorem dictLookup_update_other {α : Type} (k k' : Option String) (v : α)
    (d : List (Option String × α)) (hne : k' ≠ k) :
    dictLookup k (dictUpdate k' v d) = dictLookup k d := by
  unfold dictUpdate dictLookup
  split_ifs with hany
  · clear hany
    induction d with
    | nil => rfl
    | cons p rest ih =>
      by_cases hp : p.1 = k'
      · have hpk : ¬ p.1 = k := by rw [hp]; exact hne
        rw [List.map_cons, if_pos hp,
            List.find?_cons_of_neg _ (by simp [hne]),
            List.find?_cons_of_neg _ (by simp [hpk])]
        exact ih
      · by_cases hpk : p.1 = k
        · rw [List.map_cons, if_neg hp,
              List.find?_cons_of_pos _ (by simp [hpk]),
              List.find?_cons_of_pos _ (by simp [hpk])]
        · rw [List.map_cons, if_neg hp,
              List.find?_cons_of_neg _ (by simp [hpk]),
              List.find?_cons_of_neg _ (by simp [hpk])]
          exact ih
  · rw [List.find?_append]
    cases hfind : d.find? (fun p => decide (p.1 = k)) with
    | some r => simp
    | none =>
      rw [List.find?_cons_of_neg _ (by simp [hne])]
      rfl


/-- The loop keeps the key lists of the two dicts equal: both are
updated together with the same key or not at all. -/
theorem parseLoop_keys (width height : ℕ) (l : List XmlElem) :
    ∀ ev st ev2 st2, ev.map Prod.fst = st.map Prod.fst →
    parseLoop width height l ev st = .ok (ev2, st2) →
    ev2.map Prod.fst = st2.map Prod.fst := by
  induction l with
  | nil =>
    intro ev st ev2 st2 hk h
    simp only [parseLoop, Except.ok.injEq, Prod.mk.injEq] at h
    obtain ⟨rfl, rfl⟩ := h
    exact hk
  | cons e rest ih =>
    intro ev st ev2 st2 hk h
    unfold parseLoop at h
    cases hp : procAnn width height e with
    | error er => rw [hp] at h; exact absurd h (by simp)
    | ok r =>
      rw [hp] at h
      cases r with
      | none => exact ih ev st ev2 st2 hk h
      | some trip =>
        obtain ⟨k, evr, srec⟩ := trip
        refine ih _ _ ev2 st2 ?_ h
        rw [keys_dictUpdate, keys_dictUpdate, anyKey, anyKey, hk]

/-- The loop keeps the key lists of both dicts Nodup. -/
theorem parseLoop_nodup (width height : ℕ) (l : List XmlElem) :
    ∀ ev st ev2 st2,
    (ev.map Prod.fst).Nodup → (st.map Prod.fst).Nodup →
    parseLoop width height l ev st = .ok (ev2, st2) →
    (ev2.map Prod.fst).Nodup ∧ (st2.map Prod.fst).Nodup := by
  induction l with
  | nil =>
    intro ev st ev2 st2 hne hns h
    simp only [parseLoop, Except.ok.injEq, Prod.mk.injEq] at h
    obtain ⟨rfl, rfl⟩ := h
    exact ⟨hne, hns⟩
  | cons e rest ih =>
    intro ev st ev2 st2 hne hns h
    unfold parseLoop at h
    cases hp : procAnn width height e with
    | error er => rw [hp] at h; exact absurd h (by simp)
    | ok r =>
      rw [hp] at h
      cases r with
      | none => exact ih ev st ev2 st2 hne hns h
      | some trip =>
        obtain ⟨k, evr, srec⟩ := trip
        exact ih _ _ ev2 st2 (keys_nodup_dictUpdate k evr ev hne)
          (keys_nodup_dictUpdate k srec st hns) h

/-- Annotations whose retained key differs from `k` (or which are
skipped) leave the lookup of `k` unchanged through the loop. -/
theorem parseLoop_lookup_frozen (width height : ℕ) (k : Option String)
    (l : List XmlElem) :
    ∀ ev st ev2 st2,
    (∀ a ∈ l, ∀ r, procAnn width height a = .ok (some r) → r.1 ≠ k) →
    parseLoop width height l ev st = .ok (ev2, st2) →
    dictLookup k ev2 = dictLookup k ev ∧ dictLookup k st2 = dictLookup k st := by
  induction l with
  | nil =>
    intro ev st ev2 st2 hfr h
    simp only [parseLoop, Except.ok.injEq, Prod.mk.injEq] at h
    obtain ⟨rfl, rfl⟩ := h
    exact ⟨rfl, rfl⟩
  | cons e rest ih =>
    intro ev st ev2 st2 hfr h
    unfold parseLoop at h
    cases hp : procAnn width height e with
    | error er => rw [hp] at h; exact absurd h (by simp)
    | ok r =>
      rw [hp] at h
      cases r with
      | none =>
        exact ih ev st ev2 st2 (fun a ha => hfr a (List.mem_cons_of_mem e ha)) h
      | some trip =>
        obtain ⟨k', evr, srec⟩ := trip
        have hk' : k' ≠ k := hfr e (List.mem_cons_self e rest) (k', evr, srec) hp
        have := ih _ _ ev2 st2 (fun a ha => hfr a (List.mem_cons_of_mem e ha)) h
        rw [dictLookup_update_other k k' evr ev hk',
            dictLookup_update_other k k' srec st hk'] at this
        exact this

/-! ## C6: events and styles share their keys -/

/-- C6 (confirmed).  After a successful parse the key list of the events
dict equals the key list of the styles dict (same keys, same
multiplicity, same order): the two dicts are updated together with the
same annotation id or not at all.  Since `_write_events` emits one
Dialogue line per events entry using its key as the style name and
`_write_styles` one Style line per styles entry using its key as the
style name, the serialized Events section references exactly the style
names present in the serialized Styles section. -/
theorem C6_keys_match (width height : ℕ) (root : XmlElem)
    (ev : List (Option String × EventRec)) (st : List (Option String × StyleRec))
    (h : parse_xml width height root = .ok (ev, st)) :
    ev.map Prod.fst = st.map Prod.fst := by
  unfold parse_xml at h
  cases hf : root.find "annotations" with
  | none => rw [hf] at h; exact absurd h (by simp)
  | some cont =>
    rw [hf] at h
    exact parseLoop_keys width height (cont.findall "annotation") [] [] ev st rfl h

/-- C6, witness at a concrete one-annotation document. -/
theorem C6_keys_match_witness :
    ([(some "a2", (⟨"hi", "1000", "2000"⟩ : EventRec))].map Prod.fst) =
      ([(some "a2", (⟨some "1", some "0", 7, 0, 80, 0⟩ : StyleRec))].map Prod.fst) :=
  C6_keys_match 100 100 docC8good
    [(some "a2", ⟨"hi", "1000", "2000"⟩)]
    [(some "a2", ⟨some "1", some "0", 7, 0, 80, 0⟩)]
    (by with_unfolding_all rfl)

/-! ## C7: start/end from string min/max of the first two timecodes -/

theorem strLtb_irrefl (l : List Char) : strLtb l l = false := by
  induction l with
  | nil => rfl
  | cons c cs ih => simp [strLtb, ih]

theorem strLtb_asymm (l m : List Char) (h : strLtb l m = true) :
    strLtb m l = false := by
  induction l generalizing m with
  | nil =>
    cases m with
    | nil => simp [strLtb] at h
    | cons b bs => simp [strLtb]
  | cons a as ih =>
    cases m with
    | nil => simp [strLtb] at h
    | cons b bs =>
      unfold strLtb at h ⊢
      by_cases hab : a < b
      · rw [if_neg (lt_asymm hab), if_pos hab]
      · rw [if_neg hab] at h
        by_cases hba : b < a
        · rw [if_pos hba] at h
          exact absurd h (by simp)
        · rw [if_neg hba] at h
          rw [if_neg hba, if_neg hab]
          exact ih bs h

/-- Python's two-argument string `min` and `max` bracket each other. -/
theorem pyStrLe_min_max (a b : String) :
    pyStrLe (pymin a b) (pymax a b) = true := by
  unfold pyStrLe pymin pymax
  cases hba : strLtb b.data a.data with
  | true =>
    have hab : strLtb a.data b.data = false := strLtb_asymm _ _ hba
    simp [hba, hab]
  | false =>
    cases hab : strLtb a.data b.data with
    | true => simp [hba, hab]
    | false => simp [hba, hab, strLtb_irrefl]

theorem pymin_cases (a b : String) : pymin a b = a ∨ pymin a b = b := by
  unfold pymin
  split_ifs <;> simp

theorem pymax_cases (a b : String) : pymax a b = a ∨ pymax a b = b := by
  unfold pymax
  split_ifs <;> simp

/-- A region keyframe element carrying a timecode and a box. -/
def mkBox (t sx sy sw sh : String) : XmlElem :=
  .mk "rectRegion" [("t", t), ("x", sx), ("y", sy), ("w", sw), ("h", sh)] none []

/-- A region keyframe element carrying only a timecode. -/
def mkBoxT (t : String) : XmlElem :=
  .mk "rectRegion" [("t", t)] none []

/-- A text annotation element with the given id, text, region keyframes
and optional `appearance` element. -/
def mkAnn (aid txt : String) (boxes : List XmlElem) (app : Option XmlElem) :
    XmlElem :=
  .mk "annotation" [("id", aid), ("type", "text")] none
    ([.mk "TEXT" [] (some txt) [],
      .mk "segment" [] none [.mk "movingRegion" [] none boxes]] ++
      (match app with
       | some a => [a]
       | none => []))

/-- C7 (confirmed).  For every retained annotation the event's Start and
End are the string (lexicographic, by code point) minimum and maximum of
the `t` attributes of the first two box entries of its moving region —
the quantified tail `rest` does not occur in the result, so later box
entries are ignored — and Start <= End holds under Python's string
comparison. -/
theorem C7_time_min_max (aid txt s0 s1 sx sy sw sh : String)
    (rest : List XmlElem) (x y w h : ℚ)
    (hx : parseFloat sx = some x) (hy : parseFloat sy = some y)
    (hw : parseFloat sw = some w) (hh : parseFloat sh = some h)
    (h0 : s0 ≠ "never") (h1 : s1 ≠ "never") :
    procAnn 100 100
        (mkAnn aid txt (mkBox s0 sx sy sw sh :: mkBoxT s1 :: rest) none) =
      .ok (some (some aid, ⟨txt, pymin s0 s1, pymax s0 s1⟩,
        ⟨some "1", some "0", (get_pos 100 100 x y w h).1,
         (get_pos 100 100 x y w h).2.1, (get_pos 100 100 x y w h).2.2.1,
         (get_pos 100 100 x y w h).2.2.2⟩)) ∧
    pyStrLe (pymin s0 s1) (pymax s0 s1) = true := by
  have hn1 : pymin s0 s1 ≠ "never" := by
    rcases pymin_cases s0 s1 with hc | hc <;> rw [hc] <;> assumption
  have hn2 : pymax s0 s1 ≠ "never" := by
    rcases pymax_cases s0 s1 with hc | hc <;> rw [hc] <;> assumption
  refine ⟨?_, pyStrLe_min_max s0 s1⟩
  simp [procAnn, mkAnn, mkBox, mkBoxT, XmlElem.get, XmlElem.find,
        XmlElem.findall, XmlElem.attrs, XmlElem.children, XmlElem.tag,
        XmlElem.text, floatOfAttr, hx, hy, hw, hh, hn1, hn2]

/-- C7, witness with timecodes `9` and `10`, which order lexicographically
with `10` before `9` (Start becomes `10`, End becomes `9`). -/
theorem C7_time_min_max_witness :
    procAnn 100 100
        (mkAnn "w7" "t" (mkBox "9" "5" "5" "5" "5" :: mkBoxT "10" :: []) none) =
      .ok (some (some "w7", ⟨"t", pymin "9" "10", pymax "9" "10"⟩,
        ⟨some "1", some "0", (get_pos 100 100 5 5 5 5).1,
         (get_pos 100 100 5 5 5 5).2.1, (get_pos 100 100 5 5 5 5).2.2.1,
         (get_pos 100 100 5 5 5 5).2.2.2⟩)) ∧
    pyStrLe (pymin "9" "10") (pymax "9" "10") = true :=
  C7_time_min_max "w7" "t" "9" "10" "5" "5" "5" "5" [] 5 5 5 5
    (by with_unfolding_all rfl) (by with_unfolding_all rfl)
    (by with_unfolding_all rfl) (by with_unfolding_all rfl)
    (by decide) (by decide)

/-! ## C9: colour defaults only without an appearance element -/

/-- The C9 document: one valid annotation whose `appearance` element has
no attributes at all. -/
def docC9 : XmlElem :=
  .mk "document" [] none [.mk "annotations" [] none
    [mkAnn "a9" "note" [mkBox "1000" "0" "0" "20" "10", mkBoxT "2000"]
      (some (.mk "appearance" [] none []))]]

/-- C9 (confirmed).  The defaults `'1'`/`'0'` are used only when the
`appearance` element is entirely absent (first part); when an
`appearance` element is present the colour fields are the raw
`get('fgColor')`/`get('bgColor')` results, i.e. `None` for each missing
attribute (second part); and a `None` colour is serialized literally as
the text `None` in the Style line's colour fields instead of being
replaced by the default (third part, at a concrete document whose
appearance element has no attributes). -/
theorem C9_colour_defaults :
    (∀ (aid txt s0 s1 sx sy sw sh : String) (rest : List XmlElem) (x y w h : ℚ),
      parseFloat sx = some x → parseFloat sy = some y →
      parseFloat sw = some w → parseFloat sh = some h →
      s0 ≠ "never" → s1 ≠ "never" →
      (procAnn 100 100
          (mkAnn aid txt (mkBox s0 sx sy sw sh :: mkBoxT s1 :: rest) none)).map
          (Option.map (fun trip => (trip.2.2.PrimaryColour, trip.2.2.BackColour))) =
        .ok (some (some "1", some "0"))) ∧
    (∀ (aid txt s0 s1 sx sy sw sh : String) (rest : List XmlElem)
       (app : XmlElem) (x y w h : ℚ),
      app.tag = "appearance" →
      parseFloat sx = some x → parseFloat sy = some y →
      parseFloat sw = some w → parseFloat sh = some h →
      s0 ≠ "never" → s1 ≠ "never" →
      (procAnn 100 100
          (mkAnn aid txt (mkBox s0 sx sy sw sh :: mkBoxT s1 :: rest) (some app))).map
          (Option.map (fun trip => (trip.2.2.PrimaryColour, trip.2.2.BackColour))) =
        .ok (some (app.get "fgColor", app.get "bgColor"))) ∧
    hasLine (assOutput docC9)
      "Style: a9,Arial,4.5,None,None,None,None,0,0,1,0.1,0.2,7,0.0,80.0,0.0,0,0" = true := by
  refine ⟨?_, ?_, ?_⟩
  · intro aid txt s0 s1 sx sy sw sh rest x y w h hx hy hw hh h0 h1
    have hn1 : pymin s0 s1 ≠ "never" := by
      rcases pymin_cases s0 s1 with hc | hc <;> rw [hc] <;> assumption
    have hn2 : pymax s0 s1 ≠ "never" := by
      rcases pymax_cases s0 s1 with hc | hc <;> rw [hc] <;> assumption
    simp [procAnn, mkAnn, mkBox, mkBoxT, XmlElem.get, XmlElem.find,
          XmlElem.findall, XmlElem.attrs, XmlElem.children, XmlElem.tag,
          XmlElem.text, floatOfAttr, Except.map, hx, hy, hw, hh, hn1, hn2]
  · intro aid txt s0 s1 sx sy sw sh rest app x y w h happ hx hy hw hh h0 h1
    have hn1 : pymin s0 s1 ≠ "never" := by
      rcases pymin_cases s0 s1 with hc | hc <;> rw [hc] <;> assumption
    have hn2 : pymax s0 s1 ≠ "never" := by
      rcases pymax_cases s0 s1 with hc | hc <;> rw [hc] <;> assumption
    obtain ⟨atag, aattrs, atext, achildren⟩ := app
    simp only [XmlElem.tag] at happ
    subst happ
    simp [procAnn, mkAnn, mkBox, mkBoxT, XmlElem.get, XmlElem.find,
          XmlElem.findall, XmlElem.attrs, XmlElem.children, XmlElem.tag,
          XmlElem.text, floatOfAttr, Except.map, hx, hy, hw, hh, hn1, hn2]
  · with_unfolding_all rfl

/-- C9, witness: an appearance element carrying only `bgColor` yields a
`None` foreground colour and the raw background value. -/
theorem C9_colour_defaults_witness :
    (procAnn 100 100
        (mkAnn "w9" "t" (mkBox "1" "5" "5" "5" "5" :: mkBoxT "2" :: [])
          (some (.mk "appearance" [("bgColor", "#000")] none [])))).map
        (Option.map (fun trip => (trip.2.2.PrimaryColour, trip.2.2.BackColour))) =
      .ok (some ((.mk "appearance" [("bgColor", "#000")] none [] : XmlElem).get "fgColor",
                 (.mk "appearance" [("bgColor", "#000")] none [] : XmlElem).get "bgColor")) :=
  C9_colour_defaults.2.1 "w9" "t" "1" "2" "5" "5" "5" "5" []
    (.mk "appearance" [("bgColor", "#000")] none []) 5 5 5 5
    (by decide) (by with_unfolding_all rfl) (by with_unfolding_all rfl)
    (by with_unfolding_all rfl) (by with_unfolding_all rfl)
    (by decide) (by decide)

/-! ## C10: duplicate annotation ids -/

/-- Processing a list whose last retained occurrence of key `k` is the
annotation `e` leaves exactly `e`'s records under `k`. -/
theorem parseLoop_append_last (width height : ℕ) (k : Option String)
    (evr : EventRec) (srec : StyleRec) (e : XmlElem) (l2 : List XmlElem)
    (he : procAnn width height e = .ok (some (k, evr, srec)))
    (hfr : ∀ a ∈ l2, ∀ r, procAnn width height a = .ok (some r) → r.1 ≠ k)
    (l1 : List XmlElem) :
    ∀ ev st ev2 st2,
    parseLoop width height (l1 ++ e :: l2) ev st = .ok (ev2, st2) →
    dictLookup k ev2 = some evr ∧ dictLookup k st2 = some srec := by
  induction l1 with
  | nil =>
    intro ev st ev2 st2 h
    rw [List.nil_append] at h
    unfold parseLoop at h
    rw [he] at h
    have hfin := parseLoop_lookup_frozen width height k l2 _ _ ev2 st2 hfr h
    rw [dictLookup_update_self, dictLookup_update_self] at hfin
    exact hfin
  | cons a l1t ih =>
    intro ev st ev2 st2 h
    rw [List.cons_append] at h
    unfold parseLoop at h
    cases hp : procAnn width height a with
    | error er => rw [hp] at h; exact absurd h (by simp)
    | ok r =>
      rw [hp] at h
      cases r with
      | none => exact ih ev st ev2 st2 h
      | some trip =>
        obtain ⟨k', evr', srec'⟩ := trip
        exact ih _ _ ev2 st2 h

/-- C10 (confirmed).  After any successful parse the key lists of both
dicts are duplicate-free, so the output has at most one Style line and
one Dialogue line per id (first part); and when several retained
annotations share a key, the entry stored under that key is the one of
the annotation processed last — earlier entries are silently overwritten
(second part: `e` is the last annotation in the list whose retained key
is `k`, and the final lookup of `k` yields exactly `e`'s records). -/
theorem C10_duplicate_ids :
    (∀ (width height : ℕ) (root : XmlElem)
       (ev : List (Option String × EventRec)) (st : List (Option String × StyleRec)),
      parse_xml width height root = .ok (ev, st) →
      (ev.map Prod.fst).Nodup ∧ (st.map Prod.fst).Nodup) ∧
    (∀ (width height : ℕ) (l1 l2 : List XmlElem) (e : XmlElem)
       (k : Option String) (evr : EventRec) (srec : StyleRec)
       (ev : List (Option String × EventRec)) (st : List (Option String × StyleRec)),
      procAnn width height e = .ok (some (k, evr, srec)) →
      (∀ a ∈ l2, ∀ r, procAnn width height a = .ok (some r) → r.1 ≠ k) →
      parseLoop width height (l1 ++ e :: l2) [] [] = .ok (ev, st) →
      dictLookup k ev = some evr ∧ dictLookup k st = some srec) := by
  constructor
  · intro width height root ev st h
    unfold parse_xml at h
    cases hf : root.find "annotations" with
    | none => rw [hf] at h; exact absurd h (by simp)
    | some cont =>
      rw [hf] at h
      exact parseLoop_nodup width height (cont.findall "annotation") [] [] ev st
        List.nodup_nil List.nodup_nil h
  · intro width height l1 l2 e k evr srec ev st he hfr h
    exact parseLoop_append_last width height k evr srec e l2 he hfr l1 [] [] ev st h

/-- First annotation with the duplicated id `dup`. -/
def annDup1 : XmlElem :=
  mkAnn "dup" "first" [mkBox "1000" "0" "0" "20" "10", mkBoxT "2000"] none

/-- Second annotation with the duplicated id `dup`. -/
def annDup2 : XmlElem :=
  mkAnn "dup" "second" [mkBox "3000" "60" "60" "10" "10", mkBoxT "4000"] none

/-- C10, witness: with two retained annotations sharing id `dup`, the
final dicts hold exactly one entry for `dup`, carrying the second
annotation's data. -/
theorem C10_duplicate_ids_witness :
    dictLookup (some "dup")
        [((some "dup" : Option String), (⟨"second", "3000", "4000"⟩ : EventRec))] =
      some ⟨"second", "3000", "4000"⟩ ∧
    dictLookup (some "dup")
        [((some "dup" : Option String), (⟨some "1", some "0", 3, 60, 30, 30⟩ : StyleRec))] =
      some ⟨some "1", some "0", 3, 60, 30, 30⟩ :=
  C10_duplicate_ids.2 100 100 [annDup1] [] annDup2 (some "dup")
    ⟨"second", "3000", "4000"⟩ ⟨some "1", some "0", 3, 60, 30, 30⟩
    [(some "dup", ⟨"second", "3000", "4000"⟩)]
    [(some "dup", ⟨some "1", some "0", 3, 60, 30, 30⟩)]
    (by with_unfolding_all rfl)
    (fun a ha => absurd ha (List.not_mem_nil a))
    (by with_unfolding_all rfl)
